import Mathlib

/-!
Shallow embedding of `src/http_security_check.py` (the `analyze` function and
the `SEC_HEADERS` checklist) and proofs of the specification claims about it.

A Python `dict[str, str]` is modelled as an association list `List (String × String)`
looked up by first match; Python dict assignment `d[k] = v` updates the entry in
place when the key is present and appends otherwise; Python string `.lower()` is
modelled character by character with `Char.toLower`; Python's `needle in hay`
substring test is modelled by `strContains`.
-/

namespace HttpSec

/-- Python `str.lower()` on the ASCII header values this tool handles:
lowercase every character. -/
def lower (s : String) : String :=
  String.mk (s.data.map Char.toLower)

/-- `leadsWith n h` is true when the character list `n` is an initial segment
of `h` (helper for the Python substring test). -/
def leadsWith : List Char → List Char → Bool
  | [], _ => true
  | _ :: _, [] => false
  | a :: as, b :: bs => a == b && leadsWith as bs

/-- `hasSub needle hay` is true when `needle` occurs contiguously in `hay`. -/
def hasSub (needle : List Char) : List Char → Bool
  | [] => needle.isEmpty
  | b :: bs => leadsWith needle (b :: bs) || hasSub needle bs

/-- Python `needle in hay` for strings. -/
def strContains (hay needle : String) : Bool :=
  hasSub needle.data hay.data

/-- Model of a Python `dict[str, str]`: an association list, first match wins. -/
abbrev Headers := List (String × String)

/-- Python `k in d` / `d.get(k)`: the value at the first entry whose key is `k`. -/
def lookup (d : Headers) (k : String) : Option String :=
  (d.find? (fun p => p.1 == k)).map (fun p => p.2)

/-- Python `k in d`. -/
def containsKey (d : Headers) (k : String) : Bool :=
  (lookup d k).isSome

/-- Python `d.get(k, dflt)`. -/
def getD (d : Headers) (k dflt : String) : String :=
  (lookup d k).getD dflt

/-- Python `d[k] = v`: overwrite in place when present, append otherwise. -/
def dictSet (d : Headers) (k v : String) : Headers :=
  if containsKey d k then d.map (fun p => if p.1 == k then (k, v) else p)
  else d ++ [(k, v)]

/-- The checklist `SEC_HEADERS` from `http_security_check.py`, in source order. -/
def SEC_HEADERS : List String :=
  [ "strict-transport-security",
    "content-security-policy",
    "x-frame-options",
    "x-content-type-options",
    "referrer-policy",
    "permissions-policy",
    "x-xss-protection",
    "expect-ct",
    "public-key-pins" ]

/-- The first loop of `analyze`: every checklist name classified `"present"`
when its key is in `headers`, `"missing"` otherwise. -/
def step0 (headers : Headers) : Headers :=
  SEC_HEADERS.map (fun h =>
    if containsKey headers h then (h, "present") else (h, "missing"))

/-- The `x-content-type-options` validation block of `analyze`
(`x_content_type = headers.get(..., "").lower()`; `if x and x != "nosniff"` …). -/
def stepXcto (headers report : Headers) : Headers :=
  if lower (getD headers "x-content-type-options" "") ≠ "" ∧
      lower (getD headers "x-content-type-options" "") ≠ "nosniff" then
    dictSet report "x-content-type-options" "invalid"
  else if lower (getD headers "x-content-type-options" "") = "" then
    dictSet report "x-content-type-options" "missing"
  else report

/-- The `x-frame-options` validation block of `analyze`
(`if x and x not in {"deny", "sameorigin"}` …). -/
def stepXfo (headers report : Headers) : Headers :=
  if lower (getD headers "x-frame-options" "") ≠ "" ∧
      lower (getD headers "x-frame-options" "") ≠ "deny" ∧
      lower (getD headers "x-frame-options" "") ≠ "sameorigin" then
    dictSet report "x-frame-options" "invalid"
  else if lower (getD headers "x-frame-options" "") = "" then
    dictSet report "x-frame-options" "missing"
  else report

/-- The `strict-transport-security` (HSTS) validation block of `analyze`
(`hsts = headers.get(..., "")`; `if hsts:` then substring checks on `hsts.lower()`). -/
def stepHsts (headers report : Headers) : Headers :=
  if getD headers "strict-transport-security" "" ≠ "" then
    if strContains (lower (getD headers "strict-transport-security" "")) "max-age" = false then
      dictSet report "strict-transport-security" "present (no max-age)"
    else if strContains (lower (getD headers "strict-transport-security" "")) "max-age=0" = true then
      dictSet report "strict-transport-security" "present (disabled)"
    else report
  else report

/-- `analyze` from `http_security_check.py`: the presence loop followed by the
three validation blocks, in source order. -/
def analyze (headers : Headers) : Headers :=
  stepHsts headers (stepXfo headers (stepXcto headers (step0 headers)))

/-- The closed set of classifications named by the spec. -/
def allowedStatuses : List String :=
  ["present", "missing", "invalid", "missing/invalid",
   "present (no max-age)", "present (disabled)"]

/-- The six checklist names with no header-specific validation override. -/
def plainHeaders : List String :=
  [ "content-security-policy",
    "referrer-policy",
    "permissions-policy",
    "x-xss-protection",
    "expect-ct",
    "public-key-pins" ]

example : analyze [] = SEC_HEADERS.map (fun n => (n, "missing")) := by decide

example :
    getD (analyze [("strict-transport-security", "max-age=0")])
      "strict-transport-security" "" = "present (disabled)" := by decide

example :
    getD (analyze [("strict-transport-security", "includeSubDomains")])
      "strict-transport-security" "" = "present (no max-age)" := by decide

example :
    getD (analyze [("x-frame-options", "DENY")]) "x-frame-options" "" = "present" := by
  decide

example :
    getD (analyze [("x-frame-options", "DENY ")]) "x-frame-options" "" = "invalid" := by
  decide

example :
    getD (analyze [("content-security-policy", "")])
      "content-security-policy" "" = "present" := by decide

/-! ### Basic lemmas about the dictionary model -/

theorem lookup_cons (p : String × String) (d : Headers) (k : String) :
    lookup (p :: d) k = if p.1 == k then some p.2 else lookup d k := by
  unfold lookup
  cases h : (p.1 == k) <;> simp [List.find?_cons, h]

theorem lookup_append (d1 d2 : Headers) (n : String) :
    lookup (d1 ++ d2) n = (lookup d1 n).orElse (fun _ => lookup d2 n) := by
  induction d1 with
  | nil => simp [lookup]
  | cons p d ih =>
    rw [List.cons_append, lookup_cons, lookup_cons]
    cases h : (p.1 == n) <;> simp [ih]

theorem lookup_map_set (d : Headers) (k v n : String) :
    lookup (d.map fun p => if p.1 == k then (k, v) else p) n =
      if k = n then (lookup d n).map (fun _ => v) else lookup d n := by
  induction d with
  | nil => simp [lookup]
  | cons p d ih =>
    rw [List.map_cons, lookup_cons, lookup_cons, ih]
    by_cases hpk : p.1 = k <;> by_cases hkn : k = n <;> by_cases hpn : p.1 = n <;>
      simp_all

theorem lookup_isSome_of_containsKey (d : Headers) (k : String)
    (h : containsKey d k = true) : ∃ v, lookup d k = some v := by
  unfold containsKey at h
  cases hl : lookup d k
  · rw [hl] at h; simp at h
  · exact ⟨_, rfl⟩

theorem lookup_eq_none_of_not_containsKey (d : Headers) (k : String)
    (h : containsKey d k = false) : lookup d k = none := by
  unfold containsKey at h
  cases hl : lookup d k
  · rfl
  · rw [hl] at h; simp at h

theorem lookup_dictSet_self (d : Headers) (k v : String) :
    lookup (dictSet d k v) k = some v := by
  unfold dictSet
  by_cases h : containsKey d k = true
  · rw [if_pos h, lookup_map_set, if_pos rfl]
    obtain ⟨w, hw⟩ := lookup_isSome_of_containsKey d k h
    rw [hw]; rfl
  · rw [if_neg h, lookup_append,
      lookup_eq_none_of_not_containsKey d k (by simpa using h)]
    simp [lookup_cons]

theorem lookup_dictSet_ne (d : Headers) (k v n : String) (h : k ≠ n) :
    lookup (dictSet d k v) n = lookup d n := by
  unfold dictSet
  split
  · rw [lookup_map_set, if_neg h]
  · rw [lookup_append]
    cases hl : lookup d n
    · simp [lookup_cons, lookup, show (k == n) = false by simp [h]]
    · simp

theorem containsKey_of_mem_keys (d : Headers) (k : String)
    (h : k ∈ d.map Prod.fst) : containsKey d k = true := by
  obtain ⟨p, hp, hk⟩ := List.mem_map.1 h
  unfold containsKey lookup
  cases hf : d.find? (fun q => q.1 == k) with
  | some q => simp
  | none =>
    rw [List.find?_eq_none] at hf
    exact absurd (by simp [hk]) (hf p hp)

theorem keys_dictSet (d : Headers) (k v : String) (h : containsKey d k = true) :
    (dictSet d k v).map Prod.fst = d.map Prod.fst := by
  unfold dictSet
  rw [if_pos h, List.map_map]
  apply List.map_congr_left
  intro p _
  by_cases hpk : p.1 = k <;> simp [hpk]

theorem containsKey_of_getD_ne (d : Headers) (k : String)
    (h : getD d k "" ≠ "") : containsKey d k = true := by
  unfold containsKey
  cases hl : lookup d k
  · exact absurd (by unfold getD; rw [hl]; rfl) h
  · rfl

theorem lookup_eq_some_of_getD_ne (d : Headers) (k v : String)
    (h : getD d k "" = v) (hne : v ≠ "") : lookup d k = some v := by
  unfold getD at h
  cases hl : lookup d k with
  | none => rw [hl] at h; exact absurd h.symm (by simpa using hne)
  | some w =>
    rw [hl] at h
    simp only [Option.getD_some] at h
    rw [h]

theorem lower_eq_empty_iff (s : String) : lower s = "" ↔ s = "" := by
  rw [String.ext_iff, String.ext_iff]
  show s.data.map Char.toLower = [] ↔ s.data = []
  exact List.map_eq_nil_iff

/-! ### Substring-test lemmas -/

theorem leadsWith_trans (a b c : List Char) (hab : leadsWith a b = true)
    (hbc : leadsWith b c = true) : leadsWith a c = true := by
  induction a generalizing b c with
  | nil => rfl
  | cons x xs ih =>
    cases b with
    | nil => exact absurd hab (by simp [leadsWith])
    | cons y ys =>
      cases c with
      | nil => exact absurd hbc (by simp [leadsWith])
      | cons z zs =>
        rw [leadsWith, Bool.and_eq_true] at hab hbc ⊢
        obtain ⟨hxy, hab⟩ := hab
        obtain ⟨hyz, hbc⟩ := hbc
        refine ⟨?_, ih ys zs hab hbc⟩
        rw [beq_iff_eq] at hxy hyz ⊢
        rw [hxy, hyz]

theorem hasSub_mono (n1 n2 hay : List Char) (h12 : leadsWith n1 n2 = true)
    (h : hasSub n2 hay = true) : hasSub n1 hay = true := by
  induction hay with
  | nil =>
    rw [hasSub] at h ⊢
    cases n1 with
    | nil => rfl
    | cons x xs =>
      cases n2 with
      | nil => exact absurd h12 (by simp [leadsWith])
      | cons y ys => exact absurd h (by simp [List.isEmpty])
  | cons b bs ih =>
    rw [hasSub, Bool.or_eq_true] at h ⊢
    rcases h with h | h
    · exact Or.inl (leadsWith_trans n1 n2 (b :: bs) h12 h)
    · exact Or.inr (ih h)

/-! ### Lemmas about the presence loop and the validation blocks -/

theorem lookup_presenceMap (headers : Headers) (names : List String) (n : String)
    (hn : n ∈ names) :
    lookup (names.map fun h =>
        if containsKey headers h then (h, "present") else (h, "missing")) n =
      some (if containsKey headers n then "present" else "missing") := by
  induction names with
  | nil => cases hn
  | cons a names ih =>
    rw [List.map_cons, lookup_cons]
    by_cases han : a = n
    · subst han
      have hk : ((if containsKey headers a then (a, "present") else (a, "missing")).1 == a)
          = true := by
        by_cases hc : containsKey headers a = true <;> simp [hc]
      rw [if_pos hk]
      by_cases hc : containsKey headers a = true <;> simp [hc]
    · have hk : ((if containsKey headers a then (a, "present") else (a, "missing")).1 == n)
          = false := by
        by_cases hc : containsKey headers a = true <;> simp [hc, han]
      rw [if_neg (by simp [hk])]
      exact ih ((List.mem_cons.1 hn).resolve_left (fun h => han h.symm))

theorem lookup_step0 (headers : Headers) (n : String) (hn : n ∈ SEC_HEADERS) :
    lookup (step0 headers) n =
      some (if containsKey headers n then "present" else "missing") :=
  lookup_presenceMap headers SEC_HEADERS n hn

theorem keys_step0 (headers : Headers) :
    (step0 headers).map Prod.fst = SEC_HEADERS := by
  unfold step0
  rw [List.map_map]
  have he : (Prod.fst ∘ fun h : String =>
      if containsKey headers h then (h, "present") else (h, "missing")) = id := by
    funext h
    by_cases hc : containsKey headers h = true <;> simp [hc]
  rw [he, List.map_id]

theorem lookup_stepXcto_ne (headers report : Headers) (n : String)
    (hn : n ≠ "x-content-type-options") :
    lookup (stepXcto headers report) n = lookup report n := by
  unfold stepXcto
  split
  · exact lookup_dictSet_ne _ _ _ _ (fun h => hn h.symm)
  · split
    · exact lookup_dictSet_ne _ _ _ _ (fun h => hn h.symm)
    · rfl

theorem lookup_stepXfo_ne (headers report : Headers) (n : String)
    (hn : n ≠ "x-frame-options") :
    lookup (stepXfo headers report) n = lookup report n := by
  unfold stepXfo
  split
  · exact lookup_dictSet_ne _ _ _ _ (fun h => hn h.symm)
  · split
    · exact lookup_dictSet_ne _ _ _ _ (fun h => hn h.symm)
    · rfl

theorem lookup_stepHsts_ne (headers report : Headers) (n : String)
    (hn : n ≠ "strict-transport-security") :
    lookup (stepHsts headers report) n = lookup report n := by
  unfold stepHsts
  split
  · split
    · exact lookup_dictSet_ne _ _ _ _ (fun h => hn h.symm)
    · split
      · exact lookup_dictSet_ne _ _ _ _ (fun h => hn h.symm)
      · rfl
  · rfl

theorem keys_stepXcto (headers report : Headers)
    (h : report.map Prod.fst = SEC_HEADERS) :
    (stepXcto headers report).map Prod.fst = SEC_HEADERS := by
  have hc : containsKey report "x-content-type-options" = true :=
    containsKey_of_mem_keys _ _ (by rw [h]; decide)
  unfold stepXcto
  split
  · rw [keys_dictSet _ _ _ hc, h]
  · split
    · rw [keys_dictSet _ _ _ hc, h]
    · exact h

theorem keys_stepXfo (headers report : Headers)
    (h : report.map Prod.fst = SEC_HEADERS) :
    (stepXfo headers report).map Prod.fst = SEC_HEADERS := by
  have hc : containsKey report "x-frame-options" = true :=
    containsKey_of_mem_keys _ _ (by rw [h]; decide)
  unfold stepXfo
  split
  · rw [keys_dictSet _ _ _ hc, h]
  · split
    · rw [keys_dictSet _ _ _ hc, h]
    · exact h

theorem keys_stepHsts (headers report : Headers)
    (h : report.map Prod.fst = SEC_HEADERS) :
    (stepHsts headers report).map Prod.fst = SEC_HEADERS := by
  have hc : containsKey report "strict-transport-security" = true :=
    containsKey_of_mem_keys _ _ (by rw [h]; decide)
  unfold stepHsts
  split
  · split
    · rw [keys_dictSet _ _ _ hc, h]
    · split
      · rw [keys_dictSet _ _ _ hc, h]
      · exact h
  · exact h

/-! ### Characterization of `analyze` at each checklist key -/

theorem lookup_analyze_xcto (headers : Headers) :
    lookup (analyze headers) "x-content-type-options" =
      some (if lower (getD headers "x-content-type-options" "") = "" then "missing"
        else if lower (getD headers "x-content-type-options" "") = "nosniff" then "present"
        else "invalid") := by
  unfold analyze
  rw [lookup_stepHsts_ne _ _ _ (by decide), lookup_stepXfo_ne _ _ _ (by decide)]
  unfold stepXcto
  by_cases h1 : lower (getD headers "x-content-type-options" "") = ""
  · rw [if_neg (fun hc => hc.1 h1), if_pos h1, lookup_dictSet_self, if_pos h1]
  · by_cases h2 : lower (getD headers "x-content-type-options" "") = "nosniff"
    · rw [if_neg (fun hc => hc.2 h2), if_neg h1, if_neg h1, if_pos h2,
        lookup_step0 _ _ (by decide)]
      have hck : containsKey headers "x-content-type-options" = true := by
        refine containsKey_of_getD_ne _ _ (fun he => h1 ?_)
        rw [he]
        exact (lower_eq_empty_iff "").2 rfl
      rw [hck, if_pos rfl]
    · rw [if_pos ⟨h1, h2⟩, lookup_dictSet_self, if_neg h1, if_neg h2]

theorem lookup_analyze_xfo (headers : Headers) :
    lookup (analyze headers) "x-frame-options" =
      some (if lower (getD headers "x-frame-options" "") = "" then "missing"
        else if lower (getD headers "x-frame-options" "") = "deny" ∨
            lower (getD headers "x-frame-options" "") = "sameorigin" then "present"
        else "invalid") := by
  unfold analyze
  rw [lookup_stepHsts_ne _ _ _ (by decide)]
  unfold stepXfo
  by_cases h1 : lower (getD headers "x-frame-options" "") = ""
  · rw [if_neg (fun hc => hc.1 h1), if_pos h1, lookup_dictSet_self, if_pos h1]
  · by_cases h2 : lower (getD headers "x-frame-options" "") = "deny" ∨
        lower (getD headers "x-frame-options" "") = "sameorigin"
    · rw [if_neg (fun hc => h2.elim hc.2.1 hc.2.2), if_neg h1,
        lookup_stepXcto_ne _ _ _ (by decide), lookup_step0 _ _ (by decide)]
      have hck : containsKey headers "x-frame-options" = true := by
        refine containsKey_of_getD_ne _ _ (fun he => h1 ?_)
        rw [he]
        exact (lower_eq_empty_iff "").2 rfl
      rw [hck, if_neg h1, if_pos h2, if_pos rfl]
    · rw [if_pos ⟨h1, fun hd => h2 (Or.inl hd), fun hs => h2 (Or.inr hs)⟩,
        lookup_dictSet_self, if_neg h1, if_neg h2]

theorem lookup_analyze_hsts (headers : Headers) :
    lookup (analyze headers) "strict-transport-security" =
      some (if getD headers "strict-transport-security" "" = "" then
          (if containsKey headers "strict-transport-security" then "present" else "missing")
        else if strContains (lower (getD headers "strict-transport-security" ""))
            "max-age" = false then "present (no max-age)"
        else if strContains (lower (getD headers "strict-transport-security" ""))
            "max-age=0" = true then "present (disabled)"
        else "present") := by
  unfold analyze
  unfold stepHsts
  have hbase : lookup (stepXfo headers (stepXcto headers (step0 headers)))
      "strict-transport-security" =
      some (if containsKey headers "strict-transport-security" then "present"
        else "missing") := by
    rw [lookup_stepXfo_ne _ _ _ (by decide), lookup_stepXcto_ne _ _ _ (by decide),
      lookup_step0 _ _ (by decide)]
  by_cases h1 : getD headers "strict-transport-security" "" = ""
  · rw [if_neg (fun hc => hc h1), if_pos h1, hbase]
  · rw [if_pos h1, if_neg h1]
    have hck : containsKey headers "strict-transport-security" = true :=
      containsKey_of_getD_ne _ _ h1
    by_cases h2 : strContains (lower (getD headers "strict-transport-security" ""))
        "max-age" = false
    · rw [if_pos h2, if_pos h2, lookup_dictSet_self]
    · rw [if_neg h2, if_neg h2]
      by_cases h3 : strContains (lower (getD headers "strict-transport-security" ""))
          "max-age=0" = true
      · rw [if_pos h3, if_pos h3, lookup_dictSet_self]
      · rw [if_neg h3, if_neg h3, hbase, hck, if_pos rfl]

theorem lookup_analyze_plain (headers : Headers) (n : String) (hn : n ∈ plainHeaders) :
    lookup (analyze headers) n =
      some (if containsKey headers n then "present" else "missing") := by
  have h1 : n ∈ SEC_HEADERS := by
    simp only [plainHeaders, List.mem_cons, List.not_mem_nil, or_false] at hn
    rcases hn with rfl | rfl | rfl | rfl | rfl | rfl <;> decide
  have h2 : n ≠ "x-content-type-options" := by
    simp only [plainHeaders, List.mem_cons, List.not_mem_nil, or_false] at hn
    rcases hn with rfl | rfl | rfl | rfl | rfl | rfl <;> decide
  have h3 : n ≠ "x-frame-options" := by
    simp only [plainHeaders, List.mem_cons, List.not_mem_nil, or_false] at hn
    rcases hn with rfl | rfl | rfl | rfl | rfl | rfl <;> decide
  have h4 : n ≠ "strict-transport-security" := by
    simp only [plainHeaders, List.mem_cons, List.not_mem_nil, or_false] at hn
    rcases hn with rfl | rfl | rfl | rfl | rfl | rfl <;> decide
  unfold analyze
  rw [lookup_stepHsts_ne _ _ _ h4, lookup_stepXfo_ne _ _ _ h3,
    lookup_stepXcto_ne _ _ _ h2, lookup_step0 _ _ h1]

/-! ### Which classification strings can appear -/

theorem mem_dictSet (d : Headers) (k v : String) (p : String × String)
    (hp : p ∈ dictSet d k v) : p.2 = v ∨ p ∈ d := by
  unfold dictSet at hp
  split at hp
  · obtain ⟨q, hq, hfq⟩ := List.mem_map.1 hp
    by_cases hqk : q.1 = k
    · left; rw [← hfq]; simp [hqk]
    · right; rw [← hfq]; simp only [hqk, if_neg, beq_iff_eq, if_neg hqk]; exact hq
  · rcases List.mem_append.1 hp with h | h
    · right; exact h
    · left
      rw [List.mem_singleton.1 h]

theorem mem_step0 (headers : Headers) (p : String × String) (hp : p ∈ step0 headers) :
    p.2 = "present" ∨ p.2 = "missing" := by
  unfold step0 at hp
  obtain ⟨a, _, hfa⟩ := List.mem_map.1 hp
  by_cases hc : containsKey headers a = true
  · left; rw [← hfa, if_pos hc]
  · right; rw [← hfa, if_neg hc]

theorem mem_stepXcto (headers report : Headers) (p : String × String)
    (hp : p ∈ stepXcto headers report) :
    p.2 = "invalid" ∨ p.2 = "missing" ∨ p ∈ report := by
  unfold stepXcto at hp
  split at hp
  · rcases mem_dictSet _ _ _ _ hp with h | h
    · exact Or.inl h
    · exact Or.inr (Or.inr h)
  · split at hp
    · rcases mem_dictSet _ _ _ _ hp with h | h
      · exact Or.inr (Or.inl h)
      · exact Or.inr (Or.inr h)
    · exact Or.inr (Or.inr hp)

theorem mem_stepXfo (headers report : Headers) (p : String × String)
    (hp : p ∈ stepXfo headers report) :
    p.2 = "invalid" ∨ p.2 = "missing" ∨ p ∈ report := by
  unfold stepXfo at hp
  split at hp
  · rcases mem_dictSet _ _ _ _ hp with h | h
    · exact Or.inl h
    · exact Or.inr (Or.inr h)
  · split at hp
    · rcases mem_dictSet _ _ _ _ hp with h | h
      · exact Or.inr (Or.inl h)
      · exact Or.inr (Or.inr h)
    · exact Or.inr (Or.inr hp)

theorem mem_stepHsts (headers report : Headers) (p : String × String)
    (hp : p ∈ stepHsts headers report) :
    p.2 = "present (no max-age)" ∨ p.2 = "present (disabled)" ∨ p ∈ report := by
  unfold stepHsts at hp
  split at hp
  · split at hp
    · rcases mem_dictSet _ _ _ _ hp with h | h
      · exact Or.inl h
      · exact Or.inr (Or.inr h)
    · split at hp
      · rcases mem_dictSet _ _ _ _ hp with h | h
        · exact Or.inr (Or.inl h)
        · exact Or.inr (Or.inr h)
      · exact Or.inr (Or.inr hp)
  · exact Or.inr (Or.inr hp)

theorem analyze_status_mem (headers : Headers) (p : String × String)
    (hp : p ∈ analyze headers) : p.2 ∈ allowedStatuses := by
  unfold analyze at hp
  rcases mem_stepHsts _ _ _ hp with h | h | h
  · rw [h]; decide
  · rw [h]; decide
  rcases mem_stepXfo _ _ _ h with h | h | h
  · rw [h]; decide
  · rw [h]; decide
  rcases mem_stepXcto _ _ _ h with h | h | h
  · rw [h]; decide
  · rw [h]; decide
  rcases mem_step0 _ _ h with h | h
  · rw [h]; decide
  · rw [h]; decide

/-! ### Extensionality of `analyze` in the mapping it is given -/

theorem containsKey_congr (h1 h2 : Headers)
    (hl : ∀ k, lookup h1 k = lookup h2 k) : containsKey h1 = containsKey h2 := by
  funext k
  unfold containsKey
  rw [hl]

theorem getD_congr (h1 h2 : Headers)
    (hl : ∀ k, lookup h1 k = lookup h2 k) : getD h1 = getD h2 := by
  funext k d
  unfold getD
  rw [hl]

/-! ### Whitespace-padded values and the exact-token comparisons -/

theorem whitespace_toLower_self (c : Char) (h : c.isWhitespace = true) :
    Char.toLower c = c := by
  have h4 : ((c = ' ' ∨ c = '\t') ∨ c = '\r') ∨ c = '\n' := by
    simpa [Char.isWhitespace] using h
  rcases h4 with ((rfl | rfl) | rfl) | rfl <;> decide

/-- A value that splits as `w1 ++ t.data ++ w2` with non-empty whitespace
padding `w1 ++ w2` cannot lowercase to a whitespace-free token: lowercasing
leaves the padding characters in place. -/
theorem lower_padded_ne_token (v t tok : String) (w1 w2 : List Char)
    (hsplit : v.data = w1 ++ t.data ++ w2)
    (hws : ∀ c ∈ w1 ++ w2, c.isWhitespace = true)
    (hne : w1 ++ w2 ≠ [])
    (htok : ∀ c ∈ tok.data, c.isWhitespace = false) :
    lower v ≠ tok := by
  obtain ⟨c, hc⟩ := List.exists_mem_of_ne_nil _ hne
  have hwc : c.isWhitespace = true := hws c hc
  have hcl : Char.toLower c = c := whitespace_toLower_self c hwc
  intro hv
  have hmem : c ∈ (lower v).data := by
    show c ∈ v.data.map Char.toLower
    rw [hsplit]
    refine List.mem_map.2 ⟨c, ?_, hcl⟩
    rcases List.mem_append.1 hc with h | h
    · exact List.mem_append_left _ (List.mem_append_left _ h)
    · exact List.mem_append_right _ h
  rw [hv] at hmem
  have := htok c hmem
  rw [hwc] at this
  exact Bool.noConfusion this

/-! ### The claims -/

/-- C1: for every input header mapping, the key list of `analyze headers` is
exactly the checklist `SEC_HEADERS` (so each checklist name appears exactly
once as a key and no other key appears, the checklist being duplicate-free). -/
theorem analyze_keys_eq_checklist (headers : Headers) :
    (analyze headers).map Prod.fst = SEC_HEADERS ∧
      ((analyze headers).map Prod.fst).Nodup := by
  have hk : (analyze headers).map Prod.fst = SEC_HEADERS := by
    unfold analyze
    exact keys_stepHsts _ _ (keys_stepXfo _ _ (keys_stepXcto _ _ (keys_step0 headers)))
  exact ⟨hk, by rw [hk]; decide⟩

/-- C2 counterexample: `content-security-policy` has no validation override, yet a
key mapped to the empty string is classified `"present"`, not `"missing"` as the
claim states. -/
theorem csp_empty_value_counterexample :
    getD (analyze [("content-security-policy", "")]) "content-security-policy" ""
        = "present" ∧
      getD (analyze [("content-security-policy", "")]) "content-security-policy" ""
        ≠ "missing" := by
  decide

/-- C2 (amended): for every checklist header name without a validation override,
`analyze` classifies it `"present"` iff the key exists in the input mapping —
with any value, the empty string included — and `"missing"` otherwise. -/
theorem plain_header_presence (headers : Headers) (n : String)
    (hn : n ∈ plainHeaders) :
    getD (analyze headers) n "" =
      if containsKey headers n then "present" else "missing" := by
  unfold getD
  rw [lookup_analyze_plain headers n hn]
  rfl

/-- Witness for C2 (amended): `content-security-policy` mapped to the empty string
still counts as a present key. -/
theorem plain_header_presence_witness :
    getD (analyze [("content-security-policy", "")]) "content-security-policy" ""
      = "present" := by
  rw [plain_header_presence [("content-security-policy", "")]
    "content-security-policy" (by decide)]
  decide

/-- C3: when `strict-transport-security` is present with a non-empty value `v`,
the classification is `"present (no max-age)"` when the lowercased value lacks
the substring `max-age`, `"present (disabled)"` when it contains `max-age=0`,
and `"present"` otherwise. -/
theorem hsts_value_classification (headers : Headers) (v : String)
    (hv : getD headers "strict-transport-security" "" = v) (hne : v ≠ "") :
    getD (analyze headers) "strict-transport-security" "" =
      if strContains (lower v) "max-age" = false then "present (no max-age)"
      else if strContains (lower v) "max-age=0" = true then "present (disabled)"
      else "present" := by
  unfold getD
  rw [lookup_analyze_hsts, hv, if_neg hne]
  rfl

/-- Witness for C3: the two spec examples, `max-age=0` → `"present (disabled)"` and
`includeSubDomains` → `"present (no max-age)"`. -/
theorem hsts_value_classification_witness :
    getD (analyze [("strict-transport-security", "max-age=0")])
        "strict-transport-security" "" = "present (disabled)" ∧
      getD (analyze [("strict-transport-security", "includeSubDomains")])
        "strict-transport-security" "" = "present (no max-age)" := by
  constructor
  · rw [hsts_value_classification [("strict-transport-security", "max-age=0")]
      "max-age=0" (by decide) (by decide)]
    decide
  · rw [hsts_value_classification [("strict-transport-security", "includeSubDomains")]
      "includeSubDomains" (by decide) (by decide)]
    decide

/-- C4: when `x-frame-options` is present with a non-empty value, the
classification is `"present"` iff the lowercased value is exactly `deny` or
`sameorigin`, and `"invalid"` otherwise. -/
theorem xfo_value_classification (headers : Headers) (v : String)
    (hv : getD headers "x-frame-options" "" = v) (hne : v ≠ "") :
    getD (analyze headers) "x-frame-options" "" =
      if lower v = "deny" ∨ lower v = "sameorigin" then "present" else "invalid" := by
  unfold getD
  rw [lookup_analyze_xfo, hv, if_neg (fun h => hne ((lower_eq_empty_iff v).1 h))]
  rfl

/-- Witness for C4: the two spec examples, `DENY` → `"present"` (case-insensitive)
and `allow-from https://example.com` → `"invalid"`. -/
theorem xfo_value_classification_witness :
    getD (analyze [("x-frame-options", "DENY")]) "x-frame-options" "" = "present" ∧
      getD (analyze [("x-frame-options", "allow-from https://example.com")])
        "x-frame-options" "" = "invalid" := by
  constructor
  · rw [xfo_value_classification [("x-frame-options", "DENY")] "DENY"
      (by decide) (by decide)]
    decide
  · rw [xfo_value_classification [("x-frame-options", "allow-from https://example.com")]
      "allow-from https://example.com" (by decide) (by decide)]
    decide

/-- C5: when `x-content-type-options` is present with a non-empty value, the
classification is `"present"` iff the lowercased value is exactly `nosniff`,
and `"invalid"` otherwise. -/
theorem xcto_value_classification (headers : Headers) (v : String)
    (hv : getD headers "x-content-type-options" "" = v) (hne : v ≠ "") :
    getD (analyze headers) "x-content-type-options" "" =
      if lower v = "nosniff" then "present" else "invalid" := by
  unfold getD
  rw [lookup_analyze_xcto, hv, if_neg (fun h => hne ((lower_eq_empty_iff v).1 h))]
  rfl

/-- Witness for C5: the two spec examples, `nosniff` → `"present"` and `sniff` →
`"invalid"`. -/
theorem xcto_value_classification_witness :
    getD (analyze [("x-content-type-options", "nosniff")])
        "x-content-type-options" "" = "present" ∧
      getD (analyze [("x-content-type-options", "sniff")])
        "x-content-type-options" "" = "invalid" := by
  constructor
  · rw [xcto_value_classification [("x-content-type-options", "nosniff")] "nosniff"
      (by decide) (by decide)]
    decide
  · rw [xcto_value_classification [("x-content-type-options", "sniff")] "sniff"
      (by decide) (by decide)]
    decide

/-- C6: `analyze` is a total function of its input (it is a Lean function, so it
returns a result on every mapping and never fails), and every classification in
the returned mapping belongs to the closed set `allowedStatuses`. -/
theorem analyze_statuses_closed (headers : Headers) :
    (analyze headers).all (fun p => allowedStatuses.contains p.2) = true := by
  rw [List.all_eq_true]
  intro p hp
  exact List.elem_eq_true_of_mem (analyze_status_mem headers p hp)

/-- C7: on the empty header mapping, every checklist entry classifies as
`"missing"`. -/
theorem analyze_empty_all_missing :
    analyze [] = SEC_HEADERS.map (fun n => (n, "missing")) := by
  decide

/-- C8 counterexample: `analyze` does not trim values before comparison — the
`x-frame-options` value `"DENY "` (trailing space) classifies `"invalid"`, not
`"present"` as the claim states. -/
theorem xfo_trim_counterexample :
    getD (analyze [("x-frame-options", "DENY ")]) "x-frame-options" "" = "invalid" ∧
      getD (analyze [("x-frame-options", "DENY ")]) "x-frame-options" "" ≠ "present" := by
  decide

/-- C8 (amended): when `analyze` reads a value for a value-validation comparison it
lowercases it but does not trim it; consequently, for the exact-token comparisons,
every value equal to a valid token surrounded by leading and/or trailing
whitespace (`v.data = w1 ++ t.data ++ w2` with whitespace padding `w1 ++ w2`
non-empty, the token `t` lowercasing to `deny`/`sameorigin` for
`x-frame-options`, or to `nosniff` for `x-content-type-options`) classifies
`"invalid"`, not the same as the bare token. -/
theorem padded_token_invalid (headers : Headers) (v t : String) (w1 w2 : List Char)
    (hsplit : v.data = w1 ++ t.data ++ w2)
    (hws : ∀ c ∈ w1 ++ w2, c.isWhitespace = true)
    (hne : w1 ++ w2 ≠ []) :
    (getD headers "x-frame-options" "" = v →
      (lower t = "deny" ∨ lower t = "sameorigin") →
      getD (analyze headers) "x-frame-options" "" = "invalid") ∧
    (getD headers "x-content-type-options" "" = v →
      lower t = "nosniff" →
      getD (analyze headers) "x-content-type-options" "" = "invalid") := by
  have hvne : lower v ≠ "" :=
    lower_padded_ne_token v t "" w1 w2 hsplit hws hne (by decide)
  constructor
  · intro hv _
    have hd : lower v ≠ "deny" :=
      lower_padded_ne_token v t "deny" w1 w2 hsplit hws hne (by decide)
    have hs : lower v ≠ "sameorigin" :=
      lower_padded_ne_token v t "sameorigin" w1 w2 hsplit hws hne (by decide)
    unfold getD
    rw [lookup_analyze_xfo, hv, if_neg hvne, if_neg (fun h => h.elim hd hs)]
    rfl
  · intro hv _
    have hn : lower v ≠ "nosniff" :=
      lower_padded_ne_token v t "nosniff" w1 w2 hsplit hws hne (by decide)
    unfold getD
    rw [lookup_analyze_xcto, hv, if_neg hvne, if_neg hn]
    rfl

/-- Witness for C8 (amended): a leading space on `DENY` and a trailing space on
`nosniff` both classify `"invalid"`. -/
theorem padded_token_invalid_witness :
    getD (analyze [("x-frame-options", " DENY"), ("x-content-type-options", "nosniff ")])
        "x-frame-options" "" = "invalid" ∧
      getD (analyze [("x-frame-options", " DENY"), ("x-content-type-options", "nosniff ")])
        "x-content-type-options" "" = "invalid" :=
  ⟨(padded_token_invalid
        [("x-frame-options", " DENY"), ("x-content-type-options", "nosniff ")]
        " DENY" "DENY" [' '] [] (by decide) (by decide) (by decide)).1
      (by decide) (Or.inl (by decide)),
    (padded_token_invalid
        [("x-frame-options", " DENY"), ("x-content-type-options", "nosniff ")]
        "nosniff " "nosniff" [] [' '] (by decide) (by decide) (by decide)).2
      (by decide) (by decide)⟩

/-- C9: `analyze` is deterministic and pure — it is a Lean function of its input
alone (side-effect freedom and preservation of the input are inherent in the
embedding), and it depends only on the mapping's extension: two inputs with the
same lookup behaviour yield equal results. -/
theorem analyze_respects_lookup_equality (h1 h2 : Headers)
    (hl : ∀ k, lookup h1 k = lookup h2 k) : analyze h1 = analyze h2 := by
  have hc := containsKey_congr h1 h2 hl
  have hg := getD_congr h1 h2 hl
  unfold analyze stepHsts stepXfo stepXcto step0
  simp only [hc, hg]

/-- Witness for C9: a mapping and the same mapping with a shadowed duplicate
entry look up equally, so they analyze equally. -/
theorem analyze_respects_lookup_equality_witness :
    analyze [("x-frame-options", "DENY")] =
      analyze [("x-frame-options", "DENY"), ("x-frame-options", "SAMEORIGIN")] :=
  analyze_respects_lookup_equality _ _ (fun k => by
    cases h : ("x-frame-options" == k) <;> simp [lookup, List.find?, h])

/-- C10: HSTS "disabled" detection is substring containment, not numeric parsing:
any present `strict-transport-security` value whose lowercasing contains
`max-age=0` anywhere — e.g. `max-age=0100` — classifies `"present (disabled)"`. -/
theorem hsts_disabled_by_substring (headers : Headers) (v : String)
    (hv : getD headers "strict-transport-security" "" = v)
    (hsub : strContains (lower v) "max-age=0" = true) :
    getD (analyze headers) "strict-transport-security" "" = "present (disabled)" := by
  have hne : v ≠ "" := by
    intro h
    rw [h] at hsub
    exact absurd hsub (by decide)
  have hma : strContains (lower v) "max-age" = true :=
    hasSub_mono _ _ _ (by decide) hsub
  unfold getD
  rw [lookup_analyze_hsts, hv, if_neg hne, if_neg (by rw [hma]; decide), if_pos hsub]
  rfl

/-- Witness for C10: `max-age=0100` (a non-zero max-age that merely starts with a
zero digit) still classifies `"present (disabled)"`. -/
theorem hsts_disabled_by_substring_witness :
    getD (analyze [("strict-transport-security", "max-age=0100")])
      "strict-transport-security" "" = "present (disabled)" :=
  hsts_disabled_by_substring [("strict-transport-security", "max-age=0100")]
    "max-age=0100" (by decide) (by decide)

end HttpSec
